import Mathlib

/-!
Verification of the pairing and rostering engine of `src/pairbot.py`
(`ChurchPairingBot`).  The Python dictionaries (the store `self.data`, the
per-group `users` roster) are insertion-ordered maps; they are embedded as
association lists with the dictionary operations `dlookup`, `dinsert`,
`derase` mirroring `d[k]`, `d[k] = v` and `del d[k]`.  The ambient random
shuffle of `generate_pairs` is embedded by passing the shuffled item list as
an argument (constrained to be a permutation of the roster in the theorems),
and the fallible Telegram send is embedded by a Boolean `sendOk` parameter:
an unsuccessful send raises, so the statements of the per-group weekly step
following the send point do not execute in that case.
-/

namespace PairBot

/-- Per-user record as stored in `data[chat_id]["users"][user_id]`
(`pairbot.py` lines 116-121). -/
structure UserData where
  username : String
  joined_at : String
  last_partner : Option String
  last_pairing_date : Option String
  deriving DecidableEq, Repr

/-- One entry of a pairing record's `"pairs"` list
(`pairbot.py` lines 326-331 and 338-343): `user2_id`/`user2_name` are
`None` for the odd person out. -/
structure PairEntry where
  user1_id : String
  user1_name : String
  user2_id : Option String
  user2_name : Option String
  deriving DecidableEq, Repr

/-- One element of `data[chat_id]["pairing_history"]`
(`pairbot.py` lines 304-307). -/
structure PairingRecord where
  date : String
  pairs : List PairEntry
  deriving DecidableEq, Repr

/-- The per-group value `data[chat_id]` (`pairbot.py` lines 98-103). -/
structure Group where
  chat_title : String
  users : List (String × UserData)
  created_at : String
  pairing_history : List PairingRecord
  deriving DecidableEq, Repr

/-- The whole store `self.data`: group chat id to group data. -/
abbrev Store := List (String × Group)

/-- Dictionary lookup `d[k]` / `k in d` on an insertion-ordered map. -/
def dlookup {α : Type} (k : String) : List (String × α) → Option α
  | [] => none
  | (k1, v) :: d => if k1 = k then some v else dlookup k d

/-- Dictionary assignment `d[k] = v`: replace in place when the key is
present, otherwise append at the end (Python dicts keep insertion order). -/
def dinsert {α : Type} (k : String) (v : α) : List (String × α) → List (String × α)
  | [] => [(k, v)]
  | (k1, v1) :: d => if k1 = k then (k1, v) :: d else (k1, v1) :: dinsert k v d

/-- Dictionary deletion `del d[k]`. -/
def derase {α : Type} (k : String) : List (String × α) → List (String × α)
  | [] => []
  | (k1, v1) :: d => if k1 = k then d else (k1, v1) :: derase k d

/-- `ChurchPairingBot.generate_pairs` (`pairbot.py` lines 253-267) after the
in-place `random.shuffle`: the argument is the already-shuffled
`list(users_dict.items())`, and consecutive elements are paired up, the odd
element out becoming `(item, None)`. -/
def generate_pairs : List (String × UserData) →
    List ((String × UserData) × Option (String × UserData))
  | [] => []
  | [x] => [(x, none)]
  | x :: y :: rest => (x, some y) :: generate_pairs rest

/-- The participant identifiers mentioned by a list of outcomes of
`generate_pairs`, in order. -/
def outcomeIds : List ((String × UserData) × Option (String × UserData)) → List String
  | [] => []
  | ((uid, _), some (vid, _)) :: rest => uid :: vid :: outcomeIds rest
  | ((uid, _), none) :: rest => uid :: outcomeIds rest

/-- Number of matched (two-person) outcomes. -/
def matchedCount (pairs : List ((String × UserData) × Option (String × UserData))) : Nat :=
  (pairs.filter (fun p => p.2.isSome)).length

/-- Number of singleton (odd-person-out) outcomes. -/
def singletonCount (pairs : List ((String × UserData) × Option (String × UserData))) : Nat :=
  (pairs.filter (fun p => p.2.isNone)).length

/-- Building one history entry from one outcome of `generate_pairs`
(`pairbot.py` lines 316-343). -/
def mkPairEntry : (String × UserData) × Option (String × UserData) → PairEntry
  | ((uid, ud), some (vid, vd)) =>
      { user1_id := uid, user1_name := ud.username,
        user2_id := some vid, user2_name := some vd.username }
  | ((uid, ud), none) =>
      { user1_id := uid, user1_name := ud.username,
        user2_id := none, user2_name := none }

/-- The participant identifiers mentioned by a record's `"pairs"` list. -/
def recordIds : List PairEntry → List String
  | [] => []
  | e :: rest =>
    match e.user2_id with
    | some vid => e.user1_id :: vid :: recordIds rest
    | none => e.user1_id :: recordIds rest

/-- History append with retention (`pairbot.py` lines 346-350): push to the
back, then keep only the last 10 records. -/
def appendHistory (h : List PairingRecord) (r : PairingRecord) : List PairingRecord :=
  if (h ++ [r]).length > 10 then (h ++ [r]).drop ((h ++ [r]).length - 10)
  else h ++ [r]

/-- Which outbound message the per-group weekly step composes. -/
inductive JobMsg where
  | noMsg : JobMsg
  | needMore : JobMsg
  | pairings : JobMsg
  deriving DecidableEq, Repr

/-- The body of the per-group loop of `ChurchPairingBot.send_weekly_pairings`
(`pairbot.py` lines 277-368).  `sendOk` tells whether `bot.send_message`
succeeds; when it raises, the exception is caught by the per-group handler
(lines 367-368), so the statements after the send do not run.  `shuffled` is
the shuffled roster item list fed to `generate_pairs`, `now` the
`current_date` timestamp.  Empty roster: skip.  Size 1: the need-more
message is attempted and the state is untouched either way.  Otherwise the
record is appended (with retention) before the send, and the roster is
cleared only after a successful send. -/
def process_group (sendOk : Bool) (now : String)
    (shuffled : List (String × UserData)) (g : Group) : Group × JobMsg :=
  if g.users.isEmpty then (g, JobMsg.noMsg)
  else if g.users.length < 2 then (g, JobMsg.needMore)
  else
    let pairs := generate_pairs shuffled
    let record : PairingRecord := { date := now, pairs := pairs.map mkPairEntry }
    let g2 : Group := { g with pairing_history := appendHistory g.pairing_history record }
    if sendOk then ({ g2 with users := [] }, JobMsg.pairings)
    else (g2, JobMsg.pairings)

/-- `ChurchPairingBot.send_weekly_pairings` over the whole store
(`pairbot.py` lines 269-372): every group is processed in place, with its
own send outcome and its own shuffle; keys are untouched. -/
def send_weekly_pairings (sendOk : String → Bool) (now : String)
    (shuffle : String → List (String × UserData) → List (String × UserData))
    (store : Store) : Store :=
  store.map (fun p => (p.1, (process_group (sendOk p.1) now (shuffle p.1 p.2.users) p.2).1))

/-- Result reported by `/pairme` (`pairbot.py` lines 82-130). -/
inductive RegisterResult where
  | privateChat : RegisterResult
  | alreadyRegistered : RegisterResult
  | added : RegisterResult
  deriving DecidableEq, Repr

/-- `ChurchPairingBot.pairme` (`pairbot.py` lines 82-130): reject private
chats; create the group lazily; refresh the stored chat title
unconditionally; then either report an existing registration or append the
new user record (with `joined_at := now`) to the roster. -/
def pairme (isPrivate : Bool) (chat_id user_id username chat_title now : String)
    (store : Store) : Store × RegisterResult :=
  if isPrivate then (store, RegisterResult.privateChat)
  else
    let g0 : Group :=
      match dlookup chat_id store with
      | some g => g
      | none =>
        { chat_title := chat_title, users := [], created_at := now, pairing_history := [] }
    let g1 : Group := { g0 with chat_title := chat_title }
    if (dlookup user_id g1.users).isSome then
      (dinsert chat_id g1 store, RegisterResult.alreadyRegistered)
    else
      let newUser : UserData :=
        { username := username, joined_at := now,
          last_partner := none, last_pairing_date := none }
      (dinsert chat_id { g1 with users := dinsert user_id newUser g1.users } store,
       RegisterResult.added)

/-- Result reported by `/leave` (`pairbot.py` lines 132-156). -/
inductive LeaveResult where
  | privateChat : LeaveResult
  | notRegistered : LeaveResult
  | removed : LeaveResult
  deriving DecidableEq, Repr

/-- `ChurchPairingBot.leave` (`pairbot.py` lines 132-156): reject private
chats; report when the group or the user is absent; otherwise delete the
user's roster entry.  The group entry itself is never deleted. -/
def leave (isPrivate : Bool) (chat_id user_id : String) (store : Store) :
    Store × LeaveResult :=
  if isPrivate then (store, LeaveResult.privateChat)
  else
    match dlookup chat_id store with
    | none => (store, LeaveResult.notRegistered)
    | some g =>
      if (dlookup user_id g.users).isSome then
        (dinsert chat_id { g with users := derase user_id g.users } store,
         LeaveResult.removed)
      else (store, LeaveResult.notRegistered)

/-- Python truthiness of the `last_partner` variable of `mypair`: `None` and
the empty string are falsy. -/
def pyTruthy : Option String → Bool
  | none => false
  | some s => !(s == "")

/-- The inner loop of `ChurchPairingBot.mypair` over one record's `"pairs"`
(`pairbot.py` lines 187-194): `some lp` when a pair mentioning the user was
found (the inner `break`), where `lp` is the value assigned to
`last_partner` there — `user2_name` (possibly `None`) when the user is
`user1`, otherwise `user1_name`. -/
def findInPairs (user_id : String) : List PairEntry → Option (Option String)
  | [] => none
  | e :: rest =>
    if e.user1_id = user_id ∨ e.user2_id = some user_id then
      some (if e.user1_id = user_id then e.user2_name else some e.user1_name)
    else findInPairs user_id rest

/-- Whether every hit the user has in record `r` carries a falsy
`last_partner` value (vacuously true when the user is not in `r`). -/
def falsyResult (user_id : String) (r : PairingRecord) : Bool :=
  match findInPairs user_id r.pairs with
  | none => true
  | some lp => !pyTruthy lp

/-- The outer loop of `ChurchPairingBot.mypair` (`pairbot.py` lines
184-196) over the reversed history, carrying the `(last_partner, last_date)`
state: after the inner loop, `if last_partner: break` stops only on a truthy
partner value. -/
def mypair_loop (user_id : String) :
    List PairingRecord → Option String × Option String → Option String × Option String
  | [], st => st
  | r :: rest, st =>
    let st2 : Option String × Option String :=
      match findInPairs user_id r.pairs with
      | some lp => (lp, some r.date)
      | none => st
    if pyTruthy st2.1 then st2 else mypair_loop user_id rest st2

/-- The last-partner computation of `ChurchPairingBot.mypair`
(`pairbot.py` lines 180-196): scan the pairing history most-recent-first
starting from `(None, None)`. -/
def mypair (user_id : String) (g : Group) : Option String × Option String :=
  mypair_loop user_id g.pairing_history.reverse (none, none)

/-! ## Helper lemmas -/

theorem outcomeIds_generate_pairs : ∀ l : List (String × UserData),
    outcomeIds (generate_pairs l) = l.map Prod.fst
  | [] => rfl
  | [(_, _)] => rfl
  | (xu, xd) :: (yu, yd) :: rest => by
    simp [generate_pairs, outcomeIds, outcomeIds_generate_pairs rest]

theorem generate_pairs_counts : ∀ l : List (String × UserData),
    matchedCount (generate_pairs l) = l.length / 2 ∧
    singletonCount (generate_pairs l) = l.length % 2 ∧
    ∀ p ∈ (generate_pairs l).dropLast, p.2.isSome = true
  | [] => by simp [generate_pairs, matchedCount, singletonCount]
  | [x] => by simp [generate_pairs, matchedCount, singletonCount]
  | x :: y :: rest => by
    obtain ⟨h1, h2, h3⟩ := generate_pairs_counts rest
    refine ⟨?_, ?_, ?_⟩
    · simp only [generate_pairs, matchedCount, List.filter_cons, List.length_cons] at h1 ⊢
      simp only [Option.isSome_some, if_true, List.length_cons]
      omega
    · simp only [generate_pairs, singletonCount, List.filter_cons, List.length_cons] at h2 ⊢
      simp only [Option.isNone_some, Bool.false_eq_true, if_false]
      omega
    · show ∀ p ∈ ((x, some y) :: generate_pairs rest).dropLast, p.2.isSome = true
      cases hgp : generate_pairs rest with
      | nil => simp [List.dropLast]
      | cons a l =>
        rw [hgp] at h3
        intro p hp
        rw [show ((x, some y) :: a :: l).dropLast = (x, some y) :: (a :: l).dropLast
              from rfl] at hp
        rcases List.mem_cons.mp hp with h | h
        · subst h; rfl
        · exact h3 p h

/-! ## C1: exactness of generate_pairs -/

/-- C1: for every roster (users dictionary) with distinct identifiers and
every shuffle of its item list, the outcomes of `generate_pairs` mention,
taken together, exactly the roster's participant identifiers, with no
identifier duplicated and none omitted. -/
theorem generate_pairs_exact (users shuffled : List (String × UserData))
    (hperm : shuffled.Perm users) (hnd : (users.map Prod.fst).Nodup) :
    (outcomeIds (generate_pairs shuffled)).Perm (users.map Prod.fst) ∧
    (outcomeIds (generate_pairs shuffled)).Nodup := by
  have hp : (outcomeIds (generate_pairs shuffled)).Perm (users.map Prod.fst) := by
    rw [outcomeIds_generate_pairs shuffled]
    exact hperm.map Prod.fst
  exact ⟨hp, hp.nodup_iff.mpr hnd⟩

/-- A participant record used in concrete witnesses. -/
def wU (n : String) : UserData :=
  { username := n, joined_at := "t0", last_partner := none, last_pairing_date := none }

/-- A three-person roster used in concrete witnesses. -/
def wRoster : List (String × UserData) := [("1", wU "A"), ("2", wU "B"), ("3", wU "C")]

/-- C1 witness: the exactness theorem applied to a concrete three-person
roster with the identity shuffle. -/
theorem generate_pairs_exact_witness :
    (outcomeIds (generate_pairs wRoster)).Perm (wRoster.map Prod.fst) ∧
    (outcomeIds (generate_pairs wRoster)).Nodup :=
  generate_pairs_exact wRoster wRoster (List.Perm.refl wRoster) (by decide)

/-! ## C7: shape of the outcome sequence -/

/-- C7: a shuffled roster of even size n yields n/2 matched outcomes and no
singleton; of odd size n, (n-1)/2 matched outcomes and exactly one
singleton, and every outcome before the final one is matched; the empty
roster yields the empty sequence and a one-element roster a single
singleton. -/
theorem generate_pairs_shape (l : List (String × UserData)) :
    (l.length % 2 = 0 →
      matchedCount (generate_pairs l) = l.length / 2 ∧
      singletonCount (generate_pairs l) = 0) ∧
    (l.length % 2 = 1 →
      matchedCount (generate_pairs l) = (l.length - 1) / 2 ∧
      singletonCount (generate_pairs l) = 1 ∧
      ∀ p ∈ (generate_pairs l).dropLast, p.2.isSome = true) ∧
    generate_pairs ([] : List (String × UserData)) = [] ∧
    ∀ x : String × UserData, generate_pairs [x] = [(x, none)] := by
  obtain ⟨h1, h2, h3⟩ := generate_pairs_counts l
  refine ⟨fun hev => ⟨h1, ?_⟩, fun hodd => ⟨?_, ?_, h3⟩, rfl, fun x => rfl⟩
  · omega
  · omega
  · omega

/-- C7 witness: the shape theorem applied to a concrete three-person
roster, discharging the odd-size hypothesis. -/
theorem generate_pairs_shape_witness :
    matchedCount (generate_pairs wRoster) = (wRoster.length - 1) / 2 ∧
    singletonCount (generate_pairs wRoster) = 1 ∧
    ∀ p ∈ (generate_pairs wRoster).dropLast, p.2.isSome = true :=
  (generate_pairs_shape wRoster).2.1 (by decide)

/-! ## C5: history retention -/

theorem appendHistory_of_lt (h : List PairingRecord) (r : PairingRecord)
    (hlt : h.length < 10) : appendHistory h r = h ++ [r] := by
  unfold appendHistory
  have hc : ¬ (h ++ [r]).length > 10 := by
    simp only [List.length_append, List.length_singleton]
    omega
  rw [if_neg hc]

/-- C5: one history append keeps the ledger within the retention bound of
10, stores the new record at the back (most-recent-last), appends without
eviction below the bound, and at the bound evicts exactly the oldest
record, leaving the 10 most recent. -/
theorem appendHistory_retention (h : List PairingRecord) (r : PairingRecord)
    (hb : h.length ≤ 10) :
    (appendHistory h r).length ≤ 10 ∧
    (appendHistory h r).getLast? = some r ∧
    (h.length = 10 → appendHistory h r = h.tail ++ [r]) ∧
    (h.length < 10 → appendHistory h r = h ++ [r]) := by
  by_cases hfull : h.length = 10
  · have heq : appendHistory h r = h.tail ++ [r] := by
      unfold appendHistory
      have hc : (h ++ [r]).length > 10 := by
        simp only [List.length_append, List.length_singleton]
        omega
      rw [if_pos hc]
      have hd : (h ++ [r]).length - 10 = 1 := by
        simp only [List.length_append, List.length_singleton]
        omega
      rw [hd, List.drop_append_of_le_length (by omega), List.drop_one]
    refine ⟨?_, ?_, fun _ => heq, fun hlt => absurd hfull (by omega)⟩
    · rw [heq]
      simp only [List.length_append, List.length_tail, List.length_singleton]
      omega
    · rw [heq]
      exact List.getLast?_concat _
  · have hlt : h.length < 10 := by omega
    have heq : appendHistory h r = h ++ [r] := appendHistory_of_lt h r hlt
    refine ⟨?_, ?_, fun hc => absurd hc hfull, fun _ => heq⟩
    · rw [heq]
      simp only [List.length_append, List.length_singleton]
      omega
    · rw [heq]
      exact List.getLast?_concat _

/-- A full (ten-record) history used in the C5 witness. -/
def wFullHist : List PairingRecord :=
  List.replicate 10 { date := "old", pairs := [] }

/-- A fresh record used in concrete witnesses. -/
def wRec : PairingRecord := { date := "new", pairs := [] }

/-- C5 witness: the retention theorem applied at a history holding exactly
10 records, so the eviction clause fires. -/
theorem appendHistory_retention_witness :
    (appendHistory wFullHist wRec).length ≤ 10 ∧
    (appendHistory wFullHist wRec).getLast? = some wRec ∧
    (wFullHist.length = 10 → appendHistory wFullHist wRec = wFullHist.tail ++ [wRec]) ∧
    (wFullHist.length < 10 → appendHistory wFullHist wRec = wFullHist ++ [wRec]) :=
  appendHistory_retention wFullHist wRec (by decide)

/-! ## C6: groups with a single registrant are left untouched -/

/-- C6: the per-group weekly step on a roster of exactly one participant
composes the need-more-participants message and leaves the group untouched:
the participant stays registered and no history record is appended,
whatever the send outcome. -/
theorem process_group_single (sendOk : Bool) (now : String)
    (shuffled : List (String × UserData)) (g : Group)
    (h1 : g.users.length = 1) :
    process_group sendOk now shuffled g = (g, JobMsg.needMore) := by
  unfold process_group
  have he : g.users.isEmpty = false := by
    cases hu : g.users with
    | nil => rw [hu] at h1; simp at h1
    | cons a t => rfl
  simp [he, h1]

/-- A one-person group used in the C6 witness. -/
def wGroup1 : Group :=
  { chat_title := "W1", users := [("solo", wU "S")],
    created_at := "t0", pairing_history := [] }

/-- C6 witness: the single-registrant theorem applied to a concrete
one-person group. -/
theorem process_group_single_witness :
    process_group true "d6" wGroup1.users wGroup1 = (wGroup1, JobMsg.needMore) :=
  process_group_single true "d6" wGroup1.users wGroup1 (by decide)

/-! ## C3: what commits when the announcement send fails -/

/-- A two-person group used for the C3 counterexample and witness. -/
def cexGroupC3 : Group :=
  { chat_title := "G3", users := [("a", wU "A"), ("b", wU "B")],
    created_at := "t0", pairing_history := [] }

/-- C3 counterexample: on a two-person roster whose announcement send
fails, the pairing history does gain the new record, but the roster is NOT
emptied — it is left exactly as it was, refuting the claim that the roster
clear commits regardless of the send outcome. -/
theorem process_group_send_fail_cex :
    2 ≤ cexGroupC3.users.length ∧
    (process_group false "d3" cexGroupC3.users cexGroupC3).1.pairing_history.length =
      cexGroupC3.pairing_history.length + 1 ∧
    (process_group false "d3" cexGroupC3.users cexGroupC3).1.users = cexGroupC3.users ∧
    cexGroupC3.users ≠ [] := by
  refine ⟨by decide, by decide, by decide, by decide⟩

/-- C3 amended: on a roster of size at least 2, when the announcement send
fails the history append is still committed — the record built from the
shuffled roster is appended (with retention) — but the roster clear is
skipped and the roster is left unchanged. -/
theorem process_group_send_failure (now : String)
    (shuffled : List (String × UserData)) (g : Group)
    (h2 : 2 ≤ g.users.length) :
    process_group false now shuffled g =
      ({ g with
          pairing_history :=
            appendHistory g.pairing_history
              { date := now, pairs := (generate_pairs shuffled).map mkPairEntry } },
       JobMsg.pairings) := by
  unfold process_group
  have he : g.users.isEmpty = false := by
    cases hu : g.users with
    | nil => rw [hu] at h2; simp at h2
    | cons a t => rfl
  have hlt : ¬ g.users.length < 2 := by omega
  simp [he, hlt]

/-- C3 witness: the amended theorem applied to a concrete two-person
group. -/
theorem process_group_send_failure_witness :
    2 ≤ cexGroupC3.users.length ∧
    process_group false "d3" cexGroupC3.users cexGroupC3 =
      ({ cexGroupC3 with
          pairing_history :=
            appendHistory cexGroupC3.pairing_history
              { date := "d3",
                pairs := (generate_pairs cexGroupC3.users).map mkPairEntry } },
       JobMsg.pairings) :=
  ⟨by decide, process_group_send_failure "d3" cexGroupC3.users cexGroupC3 (by decide)⟩

/-! ## C4: the successful weekly step -/

theorem recordIds_map_mkPairEntry :
    ∀ pairs : List ((String × UserData) × Option (String × UserData)),
      recordIds (pairs.map mkPairEntry) = outcomeIds pairs
  | [] => rfl
  | ((uid, ud), some (vid, vd)) :: rest => by
    simp [mkPairEntry, recordIds, outcomeIds, recordIds_map_mkPairEntry rest]
  | ((uid, ud), none) :: rest => by
    simp [mkPairEntry, recordIds, outcomeIds, recordIds_map_mkPairEntry rest]

theorem mkPairEntry_shape (p : (String × UserData) × Option (String × UserData)) :
    ((mkPairEntry p).user2_id.isSome = true ∧ (mkPairEntry p).user2_name.isSome = true) ∨
    ((mkPairEntry p).user2_id = none ∧ (mkPairEntry p).user2_name = none) := by
  obtain ⟨⟨uid, ud⟩, o⟩ := p
  cases o with
  | none => right; exact ⟨rfl, rfl⟩
  | some y =>
    obtain ⟨vid, vd⟩ := y
    left
    exact ⟨rfl, rfl⟩

/-- C4: the per-group weekly step on a roster of size at least 2 with a
successful send empties the roster and appends one record (with retention;
a plain append whenever the history was below the bound) whose date is the
job timestamp, whose outcomes cover the pre-job roster identifiers exactly
once, and whose entries carry both ids and names for matched pairs and
null user2 fields for the singleton. -/
theorem process_group_success (now : String) (shuffled : List (String × UserData))
    (g : Group) (h2 : 2 ≤ g.users.length) (hperm : shuffled.Perm g.users)
    (hnd : (g.users.map Prod.fst).Nodup) :
    ∃ record : PairingRecord,
      process_group true now shuffled g =
        ({ g with
            users := [],
            pairing_history := appendHistory g.pairing_history record },
         JobMsg.pairings) ∧
      record.date = now ∧
      (recordIds record.pairs).Perm (g.users.map Prod.fst) ∧
      (recordIds record.pairs).Nodup ∧
      (∀ e ∈ record.pairs,
        (e.user2_id.isSome = true ∧ e.user2_name.isSome = true) ∨
        (e.user2_id = none ∧ e.user2_name = none)) ∧
      (g.pairing_history.length < 10 →
        appendHistory g.pairing_history record = g.pairing_history ++ [record]) := by
  refine ⟨{ date := now, pairs := (generate_pairs shuffled).map mkPairEntry },
    ?_, rfl, ?_, ?_, ?_, fun hlt => appendHistory_of_lt _ _ hlt⟩
  · unfold process_group
    have he : g.users.isEmpty = false := by
      cases hu : g.users with
      | nil => rw [hu] at h2; simp at h2
      | cons a t => rfl
    have hlt : ¬ g.users.length < 2 := by omega
    simp [he, hlt]
  · show (recordIds ((generate_pairs shuffled).map mkPairEntry)).Perm (g.users.map Prod.fst)
    rw [recordIds_map_mkPairEntry, outcomeIds_generate_pairs]
    exact hperm.map Prod.fst
  · show (recordIds ((generate_pairs shuffled).map mkPairEntry)).Nodup
    rw [recordIds_map_mkPairEntry, outcomeIds_generate_pairs]
    exact ((hperm.map Prod.fst).nodup_iff).mpr hnd
  · intro e hme
    obtain ⟨p, hp, hpe⟩ := List.mem_map.mp hme
    rw [← hpe]
    exact mkPairEntry_shape p

/-- A two-person group used in the C4 witness. -/
def wGroup2 : Group :=
  { chat_title := "W2", users := [("x", wU "X"), ("y", wU "Y")],
    created_at := "t0", pairing_history := [] }

/-- C4 witness: the successful-step theorem applied to a concrete
two-person group with the identity shuffle. -/
theorem process_group_success_witness :
    2 ≤ wGroup2.users.length ∧
    ∃ record : PairingRecord,
      process_group true "d4" wGroup2.users wGroup2 =
        ({ wGroup2 with
            users := [],
            pairing_history := appendHistory wGroup2.pairing_history record },
         JobMsg.pairings) ∧
      record.date = "d4" ∧
      (recordIds record.pairs).Perm (wGroup2.users.map Prod.fst) ∧
      (recordIds record.pairs).Nodup ∧
      (∀ e ∈ record.pairs,
        (e.user2_id.isSome = true ∧ e.user2_name.isSome = true) ∨
        (e.user2_id = none ∧ e.user2_name = none)) ∧
      (wGroup2.pairing_history.length < 10 →
        appendHistory wGroup2.pairing_history record = wGroup2.pairing_history ++ [record]) :=
  ⟨by decide,
   process_group_success "d4" wGroup2.users wGroup2 (by decide)
     (List.Perm.refl wGroup2.users) (by decide)⟩

/-! ## C2: the last-partner scan of mypair -/

/-- An old record in which user `u` was paired with Bob (C2 inputs). -/
def recOldC2 : PairingRecord :=
  { date := "2025-01-01",
    pairs := [{ user1_id := "u", user1_name := "Alice",
                user2_id := some "b", user2_name := some "Bob" }] }

/-- A newer record in which user `u` was the singleton (C2 inputs). -/
def recNewC2 : PairingRecord :=
  { date := "2025-01-08",
    pairs := [{ user1_id := "u", user1_name := "Alice",
                user2_id := none, user2_name := none }] }

/-- The group holding both C2 records, the singleton round most recent. -/
def cexGroupC2 : Group :=
  { chat_title := "G2", users := [], created_at := "t0",
    pairing_history := [recOldC2, recNewC2] }

/-- C2 counterexample: the most recent record contains user `u` (as a
singleton, so the claim prescribes reporting "no partner" and stopping
there), yet `mypair` keeps scanning and returns Bob together with the date
of the EARLIER record. -/
theorem mypair_cex :
    findInPairs "u" recNewC2.pairs = some none ∧
    cexGroupC2.pairing_history.reverse = [recNewC2, recOldC2] ∧
    mypair "u" cexGroupC2 = (some "Bob", some "2025-01-01") ∧
    recOldC2.date ≠ recNewC2.date :=
  ⟨by decide, by decide, by decide, by decide⟩

theorem mypair_loop_first_truthy (uid : String) :
    ∀ (pre : List PairingRecord) (r : PairingRecord) (post : List PairingRecord)
      (lp : Option String) (st : Option String × Option String),
      pyTruthy st.1 = false →
      (∀ r1 ∈ pre, falsyResult uid r1 = true) →
      findInPairs uid r.pairs = some lp →
      pyTruthy lp = true →
      mypair_loop uid (pre ++ r :: post) st = (lp, some r.date)
  | [], r, post, lp, st, hst, hpre, hlp, htr => by
    simp only [List.nil_append, mypair_loop, hlp, htr, if_true]
  | r1 :: pre, r, post, lp, st, hst, hpre, hlp, htr => by
    have h1 : falsyResult uid r1 = true := hpre r1 (List.mem_cons_self r1 pre)
    have hpre1 : ∀ r2 ∈ pre, falsyResult uid r2 = true :=
      fun r2 h2 => hpre r2 (List.mem_cons_of_mem r1 h2)
    rw [List.cons_append]
    cases hfi : findInPairs uid r1.pairs with
    | none =>
      simp only [mypair_loop, hfi, hst, Bool.false_eq_true, if_false]
      exact mypair_loop_first_truthy uid pre r post lp st hst hpre1 hlp htr
    | some lp2 =>
      have hf2 : pyTruthy lp2 = false := by
        have h2 := h1
        unfold falsyResult at h2
        rw [hfi] at h2
        simpa using h2
      simp only [mypair_loop, hfi, hf2, Bool.false_eq_true, if_false]
      exact mypair_loop_first_truthy uid pre r post lp (lp2, some r1.date) hf2 hpre1 hlp htr

/-- C2 amended: `mypair` scans the pairing history most-recent-first and
returns the partner name and date of the first record in which the
participant appears with a truthy partner value (a non-null, non-empty
name); a most-recent record whose outcome for the participant is a
singleton does NOT stop the scan, so the reported partner can come from an
earlier record. -/
theorem mypair_first_paired (uid : String) (g : Group)
    (pre post : List PairingRecord) (r : PairingRecord) (lp : Option String)
    (hsplit : g.pairing_history.reverse = pre ++ r :: post)
    (hpre : ∀ r1 ∈ pre, falsyResult uid r1 = true)
    (hlp : findInPairs uid r.pairs = some lp)
    (htr : pyTruthy lp = true) :
    mypair uid g = (lp, some r.date) := by
  unfold mypair
  rw [hsplit]
  exact mypair_loop_first_truthy uid pre r post lp (none, none) rfl hpre hlp htr

/-- C2 witness: the amended theorem applied to the concrete two-record
history, where the singleton round is skipped and Bob is reported from the
earlier record. -/
theorem mypair_first_paired_witness :
    cexGroupC2.pairing_history.reverse = [recNewC2] ++ recOldC2 :: [] ∧
    (∀ r1 ∈ [recNewC2], falsyResult "u" r1 = true) ∧
    findInPairs "u" recOldC2.pairs = some (some "Bob") ∧
    pyTruthy (some "Bob") = true ∧
    mypair "u" cexGroupC2 = (some "Bob", some recOldC2.date) :=
  ⟨by decide, by decide, by decide, by decide,
   mypair_first_paired "u" cexGroupC2 [recNewC2] [] recOldC2 (some "Bob")
     (by decide) (by decide) (by decide) (by decide)⟩

/-! ## Dictionary lemmas -/

theorem dlookup_dinsert {α : Type} (c k : String) (v : α) :
    ∀ d : List (String × α),
      dlookup k (dinsert c v d) = if c = k then some v else dlookup k d
  | [] => rfl
  | (k1, v1) :: d => by
    have ih := dlookup_dinsert c k v d
    by_cases h1 : k1 = c
    · subst h1
      rw [show dinsert k1 v ((k1, v1) :: d) = (k1, v) :: d from if_pos rfl]
      simp only [dlookup]
      by_cases h2 : k1 = k
      · simp only [if_pos h2]
      · simp only [if_neg h2]
    · rw [show dinsert c v ((k1, v1) :: d) = (k1, v1) :: dinsert c v d from if_neg h1]
      simp only [dlookup]
      by_cases h2 : k1 = k
      · have hck : ¬ c = k := fun h => h1 (h2.trans h.symm)
        simp only [if_pos h2, if_neg hck]
      · simp only [if_neg h2]
        exact ih

theorem dlookup_dinsert_isSome {α : Type} (c k : String) (v : α)
    (d : List (String × α)) (h : (dlookup k d).isSome = true) :
    (dlookup k (dinsert c v d)).isSome = true := by
  rw [dlookup_dinsert]
  by_cases hc : c = k
  · rw [if_pos hc]; rfl
  · rw [if_neg hc]; exact h

/-! ## C8 and C10: repeated registration -/

/-- The roster the store holds for a group (empty when the group is
absent). -/
def rosterOf (cid : String) (store : Store) : List (String × UserData) :=
  match dlookup cid store with
  | some g => g.users
  | none => []

theorem rosterOf_of_lookup (cid : String) (store : Store) (g : Group)
    (hg : dlookup cid store = some g) : rosterOf cid store = g.users := by
  unfold rosterOf
  rw [hg]

/-- `pairme` on a group chat always leaves the caller registered in the
group. -/
theorem pairme_lookup_self (cid uid username title now : String) (store : Store) :
    ∃ g : Group,
      dlookup cid (pairme false cid uid username title now store).1 = some g ∧
      (dlookup uid g.users).isSome = true := by
  unfold pairme
  cases hg : dlookup cid store with
  | none =>
    refine ⟨{ chat_title := title,
              users := dinsert uid
                { username := username, joined_at := now,
                  last_partner := none, last_pairing_date := none } [],
              created_at := now, pairing_history := [] }, ?_, ?_⟩
    · simp only [hg, dlookup, Option.isSome_none, Bool.false_eq_true, if_false]
      rw [dlookup_dinsert]
      simp
    · rw [dlookup_dinsert]
      simp
  | some g =>
    by_cases hu : (dlookup uid g.users).isSome = true
    · refine ⟨{ g with chat_title := title }, ?_, hu⟩
      simp only [hg, hu, if_true, Bool.false_eq_true, if_false]
      rw [dlookup_dinsert]
      simp
    · have hu2 : (dlookup uid g.users).isSome = false := by
        revert hu
        cases dlookup uid g.users <;> simp
      refine ⟨{ g with
                 chat_title := title,
                 users := dinsert uid
                   { username := username, joined_at := now,
                     last_partner := none, last_pairing_date := none } g.users }, ?_, ?_⟩
      · simp only [hg, hu2, Bool.false_eq_true, if_false]
        rw [dlookup_dinsert]
        simp
      · rw [dlookup_dinsert]
        simp

/-- `pairme` on a group chat for an already registered user: the store is
updated only by refreshing the chat title, and `AlreadyRegistered` is
reported. -/
theorem pairme_already_eq (cid uid username title now : String) (store : Store)
    (g : Group) (hg : dlookup cid store = some g)
    (hu : (dlookup uid g.users).isSome = true) :
    pairme false cid uid username title now store =
      (dinsert cid { g with chat_title := title } store,
       RegisterResult.alreadyRegistered) := by
  unfold pairme
  simp only [Bool.false_eq_true, if_false, hg]
  have hu1 : (dlookup uid ({ g with chat_title := title } : Group).users).isSome = true := hu
  simp only [hu1, if_true]

/-- C8: registering the same participant twice in the same group chat
leaves the stored roster (hence its size) unchanged after the second call,
and the second call reports `AlreadyRegistered` instead of adding or
replacing an entry. -/
theorem pairme_twice_already (cid uid n1 t1 d1 n2 t2 d2 : String) (store : Store) :
    (pairme false cid uid n2 t2 d2 (pairme false cid uid n1 t1 d1 store).1).2 =
      RegisterResult.alreadyRegistered ∧
    rosterOf cid (pairme false cid uid n2 t2 d2 (pairme false cid uid n1 t1 d1 store).1).1 =
      rosterOf cid (pairme false cid uid n1 t1 d1 store).1 := by
  obtain ⟨g, hg, hu⟩ := pairme_lookup_self cid uid n1 t1 d1 store
  have heq := pairme_already_eq cid uid n2 t2 d2 _ g hg hu
  rw [heq]
  refine ⟨rfl, ?_⟩
  rw [rosterOf_of_lookup cid _ g hg]
  unfold rosterOf
  rw [dlookup_dinsert, if_pos rfl]

/-- C8 witness: the double-registration theorem applied to concrete
identifiers over the empty store. -/
theorem pairme_twice_already_witness :
    (pairme false "c8" "u8" "B" "T2" "d2"
        (pairme false "c8" "u8" "A" "T1" "d1" ([] : Store)).1).2 =
      RegisterResult.alreadyRegistered ∧
    rosterOf "c8" (pairme false "c8" "u8" "B" "T2" "d2"
        (pairme false "c8" "u8" "A" "T1" "d1" ([] : Store)).1).1 =
      rosterOf "c8" (pairme false "c8" "u8" "A" "T1" "d1" ([] : Store)).1 :=
  pairme_twice_already "c8" "u8" "A" "T1" "d1" "B" "T2" "d2" []

/-- C10: `pairme` for a participant who is already registered reports
`AlreadyRegistered` and changes the group only by refreshing the stored
chat title: the participant's stored record (its `joined_at` in
particular), the roster, the pairing history, the creation timestamp and
every other group of the store are left exactly as they were. -/
theorem pairme_registered_frame (cid uid username title now : String)
    (store : Store) (g : Group) (u : UserData)
    (hg : dlookup cid store = some g) (hu : dlookup uid g.users = some u) :
    (pairme false cid uid username title now store).2 =
      RegisterResult.alreadyRegistered ∧
    dlookup cid (pairme false cid uid username title now store).1 =
      some { g with chat_title := title } ∧
    ({ g with chat_title := title } : Group).users = g.users ∧
    dlookup uid ({ g with chat_title := title } : Group).users = some u ∧
    ({ g with chat_title := title } : Group).pairing_history = g.pairing_history ∧
    ({ g with chat_title := title } : Group).created_at = g.created_at ∧
    ({ g with chat_title := title } : Group).chat_title = title ∧
    (∀ k, k ≠ cid →
      dlookup k (pairme false cid uid username title now store).1 = dlookup k store) := by
  have heq := pairme_already_eq cid uid username title now store g hg (by rw [hu]; rfl)
  rw [heq]
  refine ⟨rfl, ?_, rfl, hu, rfl, rfl, rfl, ?_⟩
  · rw [dlookup_dinsert, if_pos rfl]
  · intro k hk
    rw [dlookup_dinsert, if_neg (fun h => hk h.symm)]

/-- A one-group store used in the C10 witness. -/
def wStoreC10 : Store :=
  [("c10",
    { chat_title := "Old",
      users := [("u10", wU "Z")],
      created_at := "t0",
      pairing_history := [] })]

/-- The group value of `wStoreC10` before the repeated registration. -/
def wGroupC10 : Group :=
  { chat_title := "Old",
    users := [("u10", wU "Z")],
    created_at := "t0",
    pairing_history := [] }

/-- C10 witness: the frame theorem applied to a concrete store where user
`u10` is already registered in group `c10`. -/
theorem pairme_registered_frame_witness :
    (pairme false "c10" "u10" "Zed" "New" "t9" wStoreC10).2 =
      RegisterResult.alreadyRegistered ∧
    dlookup "c10" (pairme false "c10" "u10" "Zed" "New" "t9" wStoreC10).1 =
      some { wGroupC10 with chat_title := "New" } ∧
    ({ wGroupC10 with chat_title := "New" } : Group).users = wGroupC10.users ∧
    dlookup "u10" ({ wGroupC10 with chat_title := "New" } : Group).users = some (wU "Z") ∧
    ({ wGroupC10 with chat_title := "New" } : Group).pairing_history =
      wGroupC10.pairing_history ∧
    ({ wGroupC10 with chat_title := "New" } : Group).created_at = wGroupC10.created_at ∧
    ({ wGroupC10 with chat_title := "New" } : Group).chat_title = "New" ∧
    (∀ k, k ≠ "c10" →
      dlookup k (pairme false "c10" "u10" "Zed" "New" "t9" wStoreC10).1 =
        dlookup k wStoreC10) :=
  pairme_registered_frame "c10" "u10" "Zed" "New" "t9" wStoreC10 wGroupC10 (wU "Z")
    (by decide) (by decide)

/-! ## C9: group entries are never removed -/

theorem pairme_preserves_lookup (priv : Bool) (cid uid n t d k : String)
    (store : Store) (h : (dlookup k store).isSome = true) :
    (dlookup k (pairme priv cid uid n t d store).1).isSome = true := by
  unfold pairme
  cases priv with
  | true => simpa using h
  | false =>
    simp only [Bool.false_eq_true, if_false]
    cases hg : dlookup cid store with
    | none =>
      simp only [dlookup, Option.isSome_none, Bool.false_eq_true, if_false]
      exact dlookup_dinsert_isSome cid k _ store h
    | some g =>
      by_cases hu : (dlookup uid g.users).isSome = true
      · simp only [hu, if_true]
        exact dlookup_dinsert_isSome cid k _ store h
      · have hu2 : (dlookup uid g.users).isSome = false := by
          revert hu
          cases dlookup uid g.users <;> simp
        simp only [hu2, Bool.false_eq_true, if_false]
        exact dlookup_dinsert_isSome cid k _ store h

theorem leave_lookup (priv : Bool) (cid uid k : String) (store : Store) (g : Group)
    (hk : dlookup k store = some g) :
    ∃ g1 : Group,
      dlookup k (leave priv cid uid store).1 = some g1 ∧
      g1.pairing_history = g.pairing_history := by
  unfold leave
  cases priv with
  | true => exact ⟨g, hk, rfl⟩
  | false =>
    simp only [Bool.false_eq_true, if_false]
    cases hg : dlookup cid store with
    | none => exact ⟨g, hk, rfl⟩
    | some gc =>
      by_cases hu : (dlookup uid gc.users).isSome = true
      · simp only [hu, if_true]
        by_cases hck : cid = k
        · subst hck
          have hgg : gc = g := by
            rw [hk] at hg
            injection hg with hv
            exact hv.symm
          subst hgg
          refine ⟨{ gc with users := derase uid gc.users }, ?_, rfl⟩
          rw [dlookup_dinsert, if_pos rfl]
        · refine ⟨g, ?_, rfl⟩
          rw [dlookup_dinsert, if_neg hck]
          exact hk
      · have hu2 : (dlookup uid gc.users).isSome = false := by
          revert hu
          cases dlookup uid gc.users <;> simp
        simp only [hu2, Bool.false_eq_true, if_false]
        exact ⟨g, hk, rfl⟩

theorem dlookup_send_weekly (sendOk : String → Bool) (now : String)
    (shuffle : String → List (String × UserData) → List (String × UserData))
    (k : String) : ∀ store : Store,
      dlookup k (send_weekly_pairings sendOk now shuffle store) =
        (dlookup k store).map
          (fun g => (process_group (sendOk k) now (shuffle k g.users) g).1)
  | [] => rfl
  | (k1, g1) :: store => by
    simp only [send_weekly_pairings, List.map_cons, dlookup]
    by_cases h : k1 = k
    · subst h
      simp
    · simp only [if_neg h]
      exact dlookup_send_weekly sendOk now shuffle k store

/-- C9: once a group's key is present in the store, every operation keeps
it there: `/pairme` (for any chat and user), `/leave` (even of the group's
last participant — which moreover leaves the group's pairing history
untouched), and the weekly pairing job (including its roster clear) all
preserve the group entry. -/
theorem group_entries_never_removed (store : Store) (k : String) (g : Group)
    (hk : dlookup k store = some g) :
    (∀ priv : Bool, ∀ cid uid n t d : String,
      (dlookup k (pairme priv cid uid n t d store).1).isSome = true) ∧
    (∀ priv : Bool, ∀ cid uid : String, ∃ g1 : Group,
      dlookup k (leave priv cid uid store).1 = some g1 ∧
      g1.pairing_history = g.pairing_history) ∧
    (∀ sendOk : String → Bool, ∀ now : String,
      ∀ shuffle : String → List (String × UserData) → List (String × UserData),
      (dlookup k (send_weekly_pairings sendOk now shuffle store)).isSome = true) := by
  refine ⟨?_, ?_, ?_⟩
  · intro priv cid uid n t d
    exact pairme_preserves_lookup priv cid uid n t d k store (by rw [hk]; rfl)
  · intro priv cid uid
    exact leave_lookup priv cid uid k store g hk
  · intro sendOk now shuffle
    rw [dlookup_send_weekly, hk]
    rfl

/-- A one-person group used in the C9 witness. -/
def wGroup9 : Group :=
  { chat_title := "G9",
    users := [("u9", wU "U")],
    created_at := "t0",
    pairing_history := [] }

/-- A one-group store used in the C9 witness. -/
def wStoreC9 : Store := [("k9", wGroup9)]

/-- C9 witness: the preservation theorem applied to a concrete store, for a
registration in the same group, the unregistration of the group's only
participant, and a weekly job run that clears the roster. -/
theorem group_entries_never_removed_witness :
    (dlookup "k9" (pairme false "k9" "u0" "N" "T" "D" wStoreC9).1).isSome = true ∧
    (∃ g1 : Group,
      dlookup "k9" (leave false "k9" "u9" wStoreC9).1 = some g1 ∧
      g1.pairing_history = wGroup9.pairing_history) ∧
    (dlookup "k9" (send_weekly_pairings (fun _ => true) "D"
        (fun _ l => l) wStoreC9)).isSome = true :=
  ⟨(group_entries_never_removed wStoreC9 "k9" wGroup9 (by decide)).1 false "k9" "u0" "N" "T" "D",
   (group_entries_never_removed wStoreC9 "k9" wGroup9 (by decide)).2.1 false "k9" "u9",
   (group_entries_never_removed wStoreC9 "k9" wGroup9 (by decide)).2.2
     (fun _ => true) "D" (fun _ l => l)⟩

end PairBot
